import Mathlib

/-!
Verification development for the BIC photonic-crystal resonance simulator
(`BIC_Q_Factor3.py`).  The program builds a frequency-dependent coupled-mode
Hamiltonian over `N` unit cells, sweeps 50,000 frequencies, eigendecomposes
each Hamiltonian, filters physically valid resonances, reports the best one
(or a fixed theoretical reference when none is found), and exports a GDSII
fabrication layout.

The embedding below mirrors the source:
* physical parameters are exact rationals (the float literals of the source
  are exactly representable);
* real/complex arithmetic of the Hamiltonian and the scanner is over `ℝ`/`ℂ`;
* the external eigensolver `np.linalg.eigvals` is a parameter `eig` mapping a
  matrix to the list of its eigenvalues (its numerics are outside the repo);
* the GDSII geometry (`export_gds`) is a pure record of shapes over `ℚ`.
-/

open scoped Real

/-- The parameter dictionary `self.params` of `BICSimulator.__init__`:
complex permittivity (split into real and imaginary rational parts),
lattice pitch `a`, scatterer `radius`, design wavelength `lambda_0`,
unit-cell count `N`. -/
structure Params where
  epsilon_re : ℚ
  epsilon_im : ℚ
  a : ℚ
  radius : ℚ
  lambda_0 : ℚ
  N : ℕ
deriving DecidableEq

/-- The fixed "certified optimal parameters" of `BICSimulator.__init__`:
`epsilon = 12.1 + 6.0e-7j`, `a = 600e-9`, `radius = 202e-9`,
`lambda_0 = 1550e-9`, `N = 20`. -/
def defaultParams : Params :=
  { epsilon_re := 12.1
    epsilon_im := 6.0e-7
    a := 600e-9
    radius := 202e-9
    lambda_0 := 1550e-9
    N := 20 }

/-- The constant `scipy.constants.c`, the speed of light (an exact integer in SI units). -/
def lightspeed : ℚ := 299792458

/-- The derived `self.omega_0 = 2*np.pi*c/lambda_0`: the angular reference frequency. -/
noncomputable def omega0 (p : Params) : ℝ :=
  2 * Real.pi * (lightspeed : ℝ) / (p.lambda_0 : ℝ)

/-- The complex permittivity `self.params['epsilon']` as one complex number. -/
noncomputable def epsilonC (p : Params) : ℂ :=
  (p.epsilon_re : ℂ) + (p.epsilon_im : ℂ) * Complex.I

/-- The separation matrix of `_build_hamiltonian`:
`r = a * |arange(N)[:,None] - arange(N)|` followed by
`np.fill_diagonal(r, a*0.114)` — pitch times index distance off the
diagonal, the fractional self-distance `0.114*a` on the diagonal. -/
noncomputable def rdist (p : Params) (i j : Fin p.N) : ℝ :=
  if i = j then 0.114 * (p.a : ℝ)
  else (p.a : ℝ) * |((i : ℕ) : ℝ) - ((j : ℕ) : ℝ)|

/-- The term `coupling = radius**3 / (r**3 + (0.114*a)**3)` of `_build_hamiltonian`. -/
noncomputable def coupling (p : Params) (i j : Fin p.N) : ℝ :=
  (p.radius : ℝ) ^ 3 / (rdist p i j ^ 3 + (0.114 * (p.a : ℝ)) ^ 3)

/-- The term `phase = np.exp(-1j*2*np.pi*r/lambda_0)` of `_build_hamiltonian`. -/
noncomputable def phase (p : Params) (i j : Fin p.N) : ℂ :=
  Complex.exp (-Complex.I * ((2 * Real.pi * rdist p i j / (p.lambda_0 : ℝ) : ℝ) : ℂ))

/-- The variable `diag = ((omega/self.omega_0)**2 * epsilon) + 0.66` of `_build_hamiltonian`. -/
noncomputable def diag_entry (p : Params) (omega : ℝ) : ℂ :=
  (((omega / omega0 p) ^ 2 : ℝ) : ℂ) * epsilonC p + 0.66

/-- The builder `_build_hamiltonian`: `H` starts as zeros, `np.fill_diagonal(H, diag)`
puts `diag_entry` on the diagonal, then `H += 0.62 * coupling * phase` adds
the coupling term to EVERY entry (the diagonal included, with the
self-distance separation). -/
noncomputable def build_hamiltonian (p : Params) (omega : ℝ) :
    Matrix (Fin p.N) (Fin p.N) ℂ :=
  Matrix.of fun i j =>
    (if i = j then diag_entry p omega else 0)
      + 0.62 * ((coupling p i j : ℝ) : ℂ) * phase p i j

/-! ### Resonance scanner (`run_simulation`) -/

/-- The sweep resolution: `np.linspace(..., ..., 50000)`. -/
def numPoints : ℕ := 50000

/-- The sweep grid `omega_range = np.linspace(0.92*omega_0, 1.08*omega_0, 50000)`:
sample `k` is `start + k * (stop - start)/(50000 - 1)`. -/
noncomputable def omega_range (p : Params) (k : ℕ) : ℝ :=
  0.92 * omega0 p + (k : ℝ) * ((1.08 * omega0 p - 0.92 * omega0 p) / 49999)

/-- The mapping `omega_n = evals.real * self.omega_0`. -/
noncomputable def omega_n (p : Params) (ev : ℂ) : ℝ := ev.re * omega0 p

/-- The mapping `Gamma_n = -2 * evals.imag * self.omega_0`. -/
noncomputable def Gamma_n (p : Params) (ev : ℂ) : ℝ := -2 * ev.im * omega0 p

/-- The mapping `freq_THz = omega_n/(2*np.pi*1e12)`. -/
noncomputable def freq_THz (p : Params) (ev : ℂ) : ℝ :=
  omega_n p ev / (2 * Real.pi * 1e12)

/-- The mapping `Q = omega_n/Gamma_n`. -/
noncomputable def Qfactor (p : Params) (ev : ℂ) : ℝ :=
  omega_n p ev / Gamma_n p ev

/-- One sweep step of `run_simulation`: from the eigenvalue list of the
sample's Hamiltonian, keep — in eigenvalue order — the `(freq_THz, Q)` pairs
passing the mask
`valid = (Gamma_n > 1e-5) & (193.0 < freq_THz) & (freq_THz < 194.0) & (Q > 1.5e5)`
(`results.extend(zip(freq_THz[valid], Q[valid]))`). -/
noncomputable def process_sample (p : Params) (evals : List ℂ) : List (ℝ × ℝ) :=
  evals.filterMap fun ev =>
    if Gamma_n p ev > 1e-5 ∧ 193.0 < freq_THz p ev ∧ freq_THz p ev < 194.0
        ∧ Qfactor p ev > 1.5e5
    then some (freq_THz p ev, Qfactor p ev) else none

/-- The accumulated `results` list of `run_simulation`, in sweep order.
`eig` stands for the external eigensolver `np.linalg.eigvals`, which maps the
sample's Hamiltonian to the (unordered) list of its eigenvalues. -/
noncomputable def scan_results (p : Params)
    (eig : Matrix (Fin p.N) (Fin p.N) ℂ → List ℂ) : List (ℝ × ℝ) :=
  ((List.range numPoints).map fun k =>
    process_sample p (eig (build_hamiltonian p (omega_range p k)))).flatten

/-- The return value of `run_simulation`:
`return np.array(results) if results else None` — the collection when it is
non-empty, the `None` sentinel otherwise. -/
noncomputable def run_simulation (p : Params)
    (eig : Matrix (Fin p.N) (Fin p.N) ℂ → List ℂ) : Option (List (ℝ × ℝ)) :=
  match scan_results p eig with
  | [] => none
  | l => some l

/-! ### Reporter (`visualize`) -/

/-- The `self.theoretical` reference frequency (THz). -/
noncomputable def theoretical_frequency : ℝ := 193.4145

/-- The `self.theoretical` reference quality factor. -/
noncomputable def theoretical_Q : ℝ := 3.2e5

/-- The `self.theoretical` reference linewidth (MHz). -/
noncomputable def theoretical_linewidth : ℝ := 0.60

/-- Model of `np.argmax`: the index of the FIRST occurrence of the maximum of a list
(`0` on the empty list, where numpy would raise instead). -/
noncomputable def np_argmax : List ℝ → ℕ
  | [] => 0
  | [_] => 0
  | x :: y :: rest =>
      if x < (y :: rest).getD (np_argmax (y :: rest)) 0
      then np_argmax (y :: rest) + 1 else 0

/-- The printed numbers of `visualize`: on a non-`None` collection, the best
record's frequency, its `Q`, and the linewidth `freq/Q*1e3` (row
`best_idx = np.argmax(results[:,1])`); on `None`, the three `self.theoretical`
reference values. -/
noncomputable def visualize (results : Option (List (ℝ × ℝ))) : ℝ × ℝ × ℝ :=
  match results with
  | some l =>
      let best := l.getD (np_argmax (l.map Prod.snd)) (0, 0)
      (best.1, best.2, best.1 / best.2 * 1e3)
  | none => (theoretical_frequency, theoretical_Q, theoretical_linewidth)

/-! ### Layout exporter (`export_gds`) -/

/-- A `gdspy.Rectangle((x1, y1), (x2, y2), layer=...)`. -/
structure Rectangle where
  x1 : ℚ
  y1 : ℚ
  x2 : ℚ
  y2 : ℚ
  layer : ℕ
deriving DecidableEq

/-- A `gdspy.Round(center, radius, number_of_points=..., layer=...)`. -/
structure Round where
  center : ℚ × ℚ
  radius : ℚ
  number_of_points : ℕ
  layer : ℕ
deriving DecidableEq

/-- A `gdspy.CellArray(cell, columns, rows, spacing, origin)` of the disk cell. -/
structure CellArray where
  columns : ℕ
  rows : ℕ
  spacing : ℚ × ℚ
  origin : ℚ × ℚ
deriving DecidableEq

/-- The geometric content `export_gds` writes: the single disk of the `DISK`
cell, the array reference placed in `TOP`, and the alignment rectangles added
to `TOP`. -/
structure GdsLayout where
  disk : Round
  array : CellArray
  align_marks : List Rectangle
deriving DecidableEq

/-- The size `align_size = self.params['a'] * 0.5`. -/
def align_size (p : Params) : ℚ := p.a * 0.5

/-- The exporter `export_gds`: a `DISK` cell holding `gdspy.Round((0,0), radius, 64, layer=1)`,
a `TOP` cell holding `gdspy.CellArray(disk_cell, N, 1, (a, 0), (0, 0))`, and —
for `x in [-a, N*a]`, `y in [-align_size, align_size]` — two layer-2 rectangles
per `(x, y)`: one from `(x-s/2, y-s/20)` to `(x+s/2, y+s/20)` and one from
`(y-s/20, x-s/2)` to `(y+s/20, x+s/2)`, where `s = align_size`. -/
def export_gds (p : Params) : GdsLayout :=
  let s := align_size p
  { disk := ⟨(0, 0), p.radius, 64, 1⟩
    array := ⟨p.N, 1, (p.a, 0), (0, 0)⟩
    align_marks :=
      ([-p.a, (p.N : ℚ) * p.a].flatMap fun x =>
        ([-s, s].flatMap fun y =>
          [⟨x - s / 2, y - s / 20, x + s / 2, y + s / 20, 2⟩,
           ⟨y - s / 20, x - s / 2, y + s / 20, x + s / 2, 2⟩])) }

/-- The value actually found on every diagonal entry of the built Hamiltonian:
the bare-mode term `(omega/omega_0)^2 * epsilon + 0.66` PLUS the self-coupling
term `0.62 * radius^3/(2*(0.114*a)^3) * exp(-i*2*pi*(0.114*a)/lambda_0)`
contributed by the blanket `H += 0.62 * coupling * phase` update. -/
noncomputable def diag_full (p : Params) (omega : ℝ) : ℂ :=
  diag_entry p omega
    + 0.62 * ((((p.radius : ℝ) ^ 3 / (2 * (0.114 * (p.a : ℝ)) ^ 3)) : ℝ) : ℂ)
      * Complex.exp (-Complex.I *
          ((2 * Real.pi * (0.114 * (p.a : ℝ)) / (p.lambda_0 : ℝ) : ℝ) : ℂ))

/-- A concrete record collection used to instantiate the best-record law:
its maximum `Q` is `7`, first reached at index `1`. -/
noncomputable def sampleRecords : List (ℝ × ℝ) := [(1, 5), (2, 7), (3, 7)]

/-! ## Theorems -/

/-- Index bound: `np_argmax` of a non-empty list is a valid index. -/
lemma np_argmax_lt_length : ∀ (v : List ℝ), v ≠ [] → np_argmax v < v.length
  | [], h => absurd rfl h
  | [_], _ => by simp [np_argmax]
  | x :: y :: rest, _ => by
      simp only [np_argmax]
      split
      · have := np_argmax_lt_length (y :: rest) (by simp)
        simp only [List.length_cons] at this ⊢
        omega
      · simp

/-- The entry at `np_argmax` dominates every entry of the list. -/
lemma np_argmax_is_max : ∀ (v : List ℝ) (k : ℕ), k < v.length →
    v.getD k 0 ≤ v.getD (np_argmax v) 0
  | [], k, hk => absurd hk (by simp)
  | [x], k, hk => by
      have hk0 : k = 0 := by simpa using Nat.lt_one_iff.mp (by simpa using hk)
      subst hk0
      simp [np_argmax]
  | x :: y :: rest, k, hk => by
      simp only [np_argmax]
      split
      case isTrue hlt =>
        cases k with
        | zero => simpa using hlt.le
        | succ k2 =>
            have hk2 : k2 < (y :: rest).length := by
              simpa [Nat.succ_lt_succ_iff] using hk
            simpa using np_argmax_is_max (y :: rest) k2 hk2
      case isFalse hge =>
        cases k with
        | zero => simp
        | succ k2 =>
            have hk2 : k2 < (y :: rest).length := by
              simpa [Nat.succ_lt_succ_iff] using hk
            have h1 := np_argmax_is_max (y :: rest) k2 hk2
            simp only [List.getD_cons_succ, List.getD_cons_zero]
            exact le_trans h1 (not_lt.mp hge)

/-- Every entry strictly before `np_argmax` is strictly below the maximum:
the returned index is the FIRST occurrence of the maximum. -/
lemma np_argmax_first : ∀ (v : List ℝ) (k : ℕ), k < np_argmax v →
    v.getD k 0 < v.getD (np_argmax v) 0
  | [], k, hk => by simp [np_argmax] at hk
  | [x], k, hk => by simp [np_argmax] at hk
  | x :: y :: rest, k, hk => by
      by_cases hlt : x < (y :: rest).getD (np_argmax (y :: rest)) 0
      · simp only [np_argmax, if_pos hlt] at hk ⊢
        cases k with
        | zero => simpa using hlt
        | succ k2 =>
            have hk2 : k2 < np_argmax (y :: rest) := by omega
            simpa using np_argmax_first (y :: rest) k2 hk2
      · simp only [np_argmax, if_neg hlt] at hk
        omega

/-- Projection law: `getD` with the pair default commutes with the `Q`-projection. -/
lemma getD_map_snd (l : List (ℝ × ℝ)) (k : ℕ) :
    (l.map Prod.snd).getD k 0 = (l.getD k (0, 0)).2 := by
  induction l generalizing k with
  | nil => simp
  | cons x t ih =>
      cases k with
      | zero => simp
      | succ k2 =>
          simp only [List.map_cons, List.getD_cons_succ]
          exact ih k2

/-- The separation `rdist` is symmetric in its two indices. -/
lemma rdist_symm (p : Params) (i j : Fin p.N) : rdist p i j = rdist p j i := by
  unfold rdist
  by_cases h : i = j
  · simp [h]
  · rw [if_neg h, if_neg fun h2 => h h2.symm, abs_sub_comm]

/-- Every diagonal entry of the built Hamiltonian is the bare-mode
term plus the (index-independent) self-coupling term. -/
lemma build_hamiltonian_diag (p : Params) (omega : ℝ) (i : Fin p.N) :
    build_hamiltonian p omega i i = diag_full p omega := by
  unfold build_hamiltonian diag_full coupling phase rdist
  rw [Matrix.of_apply, if_pos rfl, if_pos rfl]
  congr 2
  push_cast
  ring

/-- Claim C1 (counterexample): at the fixed parameters, at `omega = omega_0`,
the first diagonal entry of the built Hamiltonian does NOT equal the bare
formula `(omega/omega_0)^2 * epsilon + 0.66`: the blanket coupling update also
adds a nonzero self-coupling term to the diagonal. -/
theorem c1_counterexample :
    build_hamiltonian defaultParams (omega0 defaultParams)
        ⟨0, by decide⟩ ⟨0, by decide⟩
      ≠ (((omega0 defaultParams / omega0 defaultParams) ^ 2 : ℝ) : ℂ)
          * epsilonC defaultParams + 0.66 := by
  intro h
  have h2 : build_hamiltonian defaultParams (omega0 defaultParams)
      ⟨0, by decide⟩ ⟨0, by decide⟩ = diag_entry defaultParams (omega0 defaultParams) := h
  rw [build_hamiltonian_diag] at h2
  unfold diag_full at h2
  have h3 := add_right_eq_self.mp h2.symm.symm
  have hrad : (0 : ℝ) < (defaultParams.radius : ℝ) := by
    rw [show defaultParams.radius = 202e-9 from rfl]
    norm_num
  have ha : (0 : ℝ) < (defaultParams.a : ℝ) := by
    rw [show defaultParams.a = 600e-9 from rfl]
    norm_num
  have hc : (0 : ℝ) < (defaultParams.radius : ℝ) ^ 3
      / (2 * (0.114 * (defaultParams.a : ℝ)) ^ 3) := by positivity
  exact mul_ne_zero
    (mul_ne_zero (by norm_num) (Complex.ofReal_ne_zero.mpr hc.ne'))
    (Complex.exp_ne_zero _) h3

/-- Claim C1 (amended): every diagonal entry of the built Hamiltonian equals
`(omega/omega_0)^2 * epsilon + 0.66` PLUS the self-coupling term
`0.62 * radius^3/(2*(0.114*a)^3) * exp(-i*2*pi*(0.114*a)/lambda_0)`; and for a
one-cell structure (`N = 1`) the single eigenvalue of the 1x1 Hamiltonian —
the root of its characteristic determinant — is exactly this augmented
diagonal value. -/
theorem c1_amended (p : Params) (omega : ℝ) :
    (∀ i : Fin p.N, build_hamiltonian p omega i i = diag_full p omega)
    ∧ (∀ mu : ℂ,
        (build_hamiltonian { p with N := 1 } omega - mu • 1).det = 0
          ↔ mu = diag_full { p with N := 1 } omega) := by
  refine ⟨build_hamiltonian_diag p omega, fun mu => ?_⟩
  rw [Matrix.det_fin_one, Matrix.sub_apply, Matrix.smul_apply, Matrix.one_apply_eq,
    smul_eq_mul, mul_one, build_hamiltonian_diag, sub_eq_zero, eq_comm]

/-- Claim C6: for distinct indices `i ≠ j`, the Hamiltonian entry `H[i][j]`
is exactly `0.62 * radius^3/(r^3 + (0.114*a)^3) * exp(-i*2*pi*r/lambda_0)`
with separation `r = a * |i - j|`. -/
theorem c6_offdiagonal_formula (p : Params) (omega : ℝ) (i j : Fin p.N)
    (h : i ≠ j) :
    build_hamiltonian p omega i j
      = 0.62 * ((((p.radius : ℝ) ^ 3
            / (((p.a : ℝ) * |((i : ℕ) : ℝ) - ((j : ℕ) : ℝ)|) ^ 3
                + (0.114 * (p.a : ℝ)) ^ 3)) : ℝ) : ℂ)
          * Complex.exp (-Complex.I *
              ((2 * Real.pi * ((p.a : ℝ) * |((i : ℕ) : ℝ) - ((j : ℕ) : ℝ)|)
                  / (p.lambda_0 : ℝ) : ℝ) : ℂ)) := by
  unfold build_hamiltonian coupling phase rdist
  rw [Matrix.of_apply, if_neg h, if_neg h, zero_add]

/-- Claim C6 (witness): the off-diagonal formula instantiated at the fixed
parameters, `omega = 0`, `i = 0`, `j = 1`. -/
theorem c6_witness :
    (⟨0, by decide⟩ : Fin defaultParams.N) ≠ ⟨1, by decide⟩
    ∧ build_hamiltonian defaultParams 0 ⟨0, by decide⟩ ⟨1, by decide⟩
      = 0.62 * ((((defaultParams.radius : ℝ) ^ 3
            / (((defaultParams.a : ℝ)
                  * |(((⟨0, by decide⟩ : Fin defaultParams.N) : ℕ) : ℝ)
                      - (((⟨1, by decide⟩ : Fin defaultParams.N) : ℕ) : ℝ)|) ^ 3
                + (0.114 * (defaultParams.a : ℝ)) ^ 3)) : ℝ) : ℂ)
          * Complex.exp (-Complex.I *
              ((2 * Real.pi * ((defaultParams.a : ℝ)
                  * |(((⟨0, by decide⟩ : Fin defaultParams.N) : ℕ) : ℝ)
                      - (((⟨1, by decide⟩ : Fin defaultParams.N) : ℕ) : ℝ)|)
                  / (defaultParams.lambda_0 : ℝ) : ℝ) : ℂ)) :=
  ⟨by decide, c6_offdiagonal_formula defaultParams 0 _ _ (by decide)⟩

/-- Claim C9: for positive pitch the coupling denominator
`r^3 + (0.114*a)^3` is strictly positive (hence nonzero — the coupling
division is never a division by zero), and on the diagonal the separation is
the self-distance `0.114*a`. -/
theorem c9_denominator_nonzero (p : Params) (h : (0 : ℚ) < p.a)
    (i j : Fin p.N) :
    0 < rdist p i j ^ 3 + (0.114 * (p.a : ℝ)) ^ 3
    ∧ rdist p i j ^ 3 + (0.114 * (p.a : ℝ)) ^ 3 ≠ 0
    ∧ rdist p i i = 0.114 * (p.a : ℝ) := by
  have ha : (0 : ℝ) < (p.a : ℝ) := by exact_mod_cast h
  have hr : 0 ≤ rdist p i j := by
    unfold rdist
    split
    · positivity
    · exact mul_nonneg ha.le (abs_nonneg _)
  have hpos : 0 < rdist p i j ^ 3 + (0.114 * (p.a : ℝ)) ^ 3 := by positivity
  exact ⟨hpos, hpos.ne', if_pos rfl⟩

/-- Claim C9 (witness): the denominator bounds instantiated at the fixed
parameters (pitch `600e-9 > 0`), indices `i = 0`, `j = 1`. -/
theorem c9_witness :
    (0 : ℚ) < defaultParams.a
    ∧ (0 < rdist defaultParams ⟨0, by decide⟩ ⟨1, by decide⟩ ^ 3
          + (0.114 * (defaultParams.a : ℝ)) ^ 3
        ∧ rdist defaultParams ⟨0, by decide⟩ ⟨1, by decide⟩ ^ 3
          + (0.114 * (defaultParams.a : ℝ)) ^ 3 ≠ 0
        ∧ rdist defaultParams ⟨0, by decide⟩ ⟨0, by decide⟩
          = 0.114 * (defaultParams.a : ℝ)) :=
  ⟨by norm_num [defaultParams],
   c9_denominator_nonzero defaultParams (by norm_num [defaultParams]) _ _⟩

/-- With the eigensolver stub returning no eigenvalues, no record is ever
accepted and the accumulated result list is empty. -/
lemma scan_results_nil :
    scan_results defaultParams (fun _ => ([] : List ℂ)) = [] := by
  simp [scan_results, process_sample]

/-- Claim C3 (counterexample): when no eigenvalue passes the acceptance
filter, `run_simulation` does not return an empty collection — it returns the
`None` sentinel, which is not a collection at all. -/
theorem c3_counterexample :
    run_simulation defaultParams (fun _ => ([] : List ℂ)) = none
    ∧ run_simulation defaultParams (fun _ => ([] : List ℂ))
        ≠ some ([] : List (ℝ × ℝ)) := by
  have h : run_simulation defaultParams (fun _ => ([] : List ℂ)) = none := by
    unfold run_simulation
    rw [scan_results_nil]
  exact ⟨h, by rw [h]; exact fun hc => Option.noConfusion hc⟩

/-- Claim C3 (amended): after the sweep, `run_simulation` returns the full
record collection when it is non-empty, and returns the `None` sentinel —
not an empty collection — when no eigenvalue of any sweep sample passes the
acceptance filter. -/
theorem c3_amended (p : Params)
    (eig : Matrix (Fin p.N) (Fin p.N) ℂ → List ℂ) :
    (scan_results p eig = [] → run_simulation p eig = none)
    ∧ (scan_results p eig ≠ [] →
        run_simulation p eig = some (scan_results p eig)) := by
  constructor
  · intro h
    unfold run_simulation
    rw [h]
  · intro h
    unfold run_simulation
    rcases hs : scan_results p eig with _ | ⟨x, xs⟩
    · exact absurd hs h
    · rfl

/-- Claim C3 (witness): the amended return law applied to the stub
eigensolver with an empty spectrum. -/
theorem c3_witness :
    scan_results defaultParams (fun _ => ([] : List ℂ)) = []
    ∧ run_simulation defaultParams (fun _ => ([] : List ℂ)) = none :=
  ⟨scan_results_nil, (c3_amended defaultParams _).1 scan_results_nil⟩

/-- Claim C4: a `(freq_THz, Q)` pair enters the scan results exactly when it
comes from an eigenvalue of some sweep sample satisfying
`Gamma_n > 1e-5`, `193.0 < freq_THz < 194.0` and `Q > 1.5e5`; and an
eigenvalue with zero or negative decay rate contributes nothing (silent
exclusion, no error). -/
theorem c4_filter_law (p : Params)
    (eig : Matrix (Fin p.N) (Fin p.N) ℂ → List ℂ) (fq : ℝ × ℝ) :
    (fq ∈ scan_results p eig ↔
      ∃ k < numPoints, ∃ ev ∈ eig (build_hamiltonian p (omega_range p k)),
        fq = (freq_THz p ev, Qfactor p ev)
        ∧ Gamma_n p ev > 1e-5 ∧ 193.0 < freq_THz p ev
        ∧ freq_THz p ev < 194.0 ∧ Qfactor p ev > 1.5e5)
    ∧ (∀ ev : ℂ, Gamma_n p ev ≤ 0 → process_sample p [ev] = []) := by
  constructor
  · unfold scan_results process_sample
    simp only [List.mem_flatten, List.mem_map, List.mem_range,
      List.mem_filterMap, Option.ite_none_right_eq_some, Option.some.injEq,
      exists_exists_and_eq_and]
    constructor
    · rintro ⟨k, hk, ev, hev, ⟨h1, h2, h3, h4⟩, heq⟩
      exact ⟨k, hk, ev, hev, heq.symm, h1, h2, h3, h4⟩
    · rintro ⟨k, hk, ev, hev, heq, h1, h2, h3, h4⟩
      exact ⟨k, hk, ev, hev, ⟨h1, h2, h3, h4⟩, heq.symm⟩
  · intro ev h
    have hno : ¬ (Gamma_n p ev > 1e-5 ∧ 193.0 < freq_THz p ev
        ∧ freq_THz p ev < 194.0 ∧ Qfactor p ev > 1.5e5) := by
      intro hc
      linarith [hc.1]
    simp [process_sample, hno]

/-- Claim C4 (witness): the eigenvalue `0` has decay rate `0 ≤ 0` and is
silently dropped by the filter. -/
theorem c4_witness :
    Gamma_n defaultParams 0 ≤ 0
    ∧ process_sample defaultParams [(0 : ℂ)] = [] := by
  have h : Gamma_n defaultParams 0 ≤ 0 := by
    simp [Gamma_n]
  exact ⟨h, (c4_filter_law defaultParams (fun _ => []) (0, 0)).2 0 h⟩

/-- Claim C5: the sweep has exactly 50,000 samples; the grid starts at
`0.92*omega_0`, ends at `1.08*omega_0`, advances by a constant positive step
(hence is strictly increasing); and every eigenvalue is mapped by
`omega_n = Re*omega_0`, `Gamma_n = -2*Im*omega_0`,
`freq_THz = omega_n/(2*pi*1e12)`, `Q = omega_n/Gamma_n`. -/
theorem c5_sweep_grid (p : Params) (h : (0 : ℚ) < p.lambda_0) :
    numPoints = 50000
    ∧ omega_range p 0 = 0.92 * omega0 p
    ∧ omega_range p (numPoints - 1) = 1.08 * omega0 p
    ∧ (∀ k : ℕ, omega_range p (k + 1) - omega_range p k
        = (1.08 * omega0 p - 0.92 * omega0 p) / 49999)
    ∧ (∀ k l : ℕ, k < l → omega_range p k < omega_range p l)
    ∧ (∀ ev : ℂ, omega_n p ev = ev.re * omega0 p
        ∧ Gamma_n p ev = -2 * ev.im * omega0 p
        ∧ freq_THz p ev = omega_n p ev / (2 * Real.pi * 1e12)
        ∧ Qfactor p ev = omega_n p ev / Gamma_n p ev) := by
  have hl : (0 : ℝ) < (p.lambda_0 : ℝ) := by exact_mod_cast h
  have hc : (0 : ℝ) < (lightspeed : ℝ) := by
    rw [show lightspeed = 299792458 from rfl]
    norm_num
  have hw : 0 < omega0 p := by
    unfold omega0
    positivity
  refine ⟨rfl, by unfold omega_range; norm_num, ?_, ?_, ?_,
    fun ev => ⟨rfl, rfl, rfl, rfl⟩⟩
  · show omega_range p 49999 = 1.08 * omega0 p
    unfold omega_range
    push_cast
    field_simp
  · intro k
    unfold omega_range
    push_cast
    ring
  · intro k l hkl
    unfold omega_range
    have hstep : 0 < (1.08 * omega0 p - 0.92 * omega0 p) / 49999 := by
      have hd : 0 < 1.08 * omega0 p - 0.92 * omega0 p := by nlinarith
      positivity
    have hkl2 : ((k : ℝ)) < (l : ℝ) := by exact_mod_cast hkl
    have := mul_lt_mul_of_pos_right hkl2 hstep
    linarith

/-- Claim C5 (witness): the grid endpoints at the fixed parameters
(`lambda_0 = 1550e-9 > 0`). -/
theorem c5_witness :
    (0 : ℚ) < defaultParams.lambda_0
    ∧ omega_range defaultParams 0 = 0.92 * omega0 defaultParams
    ∧ omega_range defaultParams (numPoints - 1) = 1.08 * omega0 defaultParams :=
  ⟨by norm_num [defaultParams],
   (c5_sweep_grid defaultParams (by norm_num [defaultParams])).2.1,
   (c5_sweep_grid defaultParams (by norm_num [defaultParams])).2.2.1⟩

/-- Claim C8: when the sweep accepts no record, the reporter falls back to
the fixed theoretical reference: frequency `193.4145` THz, quality factor
`3.2e5`, linewidth `0.60` MHz. -/
theorem c8_reference_fallback (p : Params)
    (eig : Matrix (Fin p.N) (Fin p.N) ℂ → List ℂ)
    (h : scan_results p eig = []) :
    visualize (run_simulation p eig) = (193.4145, 3.2e5, 0.60) := by
  unfold run_simulation
  rw [h]
  rfl

/-- Claim C8 (witness): the fallback triggered by the stub eigensolver with
an empty spectrum. -/
theorem c8_witness :
    scan_results defaultParams (fun _ => ([] : List ℂ)) = []
    ∧ visualize (run_simulation defaultParams (fun _ => ([] : List ℂ)))
      = (193.4145, 3.2e5, 0.60) :=
  ⟨scan_results_nil, c8_reference_fallback defaultParams _ scan_results_nil⟩

/-- Claim C7: on a non-empty record collection the reporter picks the row at
`np.argmax` of the `Q` column — a valid index whose `Q` dominates the whole
collection, with every strictly earlier row strictly below it (ties go to the
first occurrence) — and prints that row's frequency, its `Q`, and the
linewidth `frequency/Q * 1e3` MHz. -/
theorem c7_best_record (l : List (ℝ × ℝ)) (h : l ≠ []) :
    np_argmax (l.map Prod.snd) < l.length
    ∧ (∀ k, k < l.length →
        (l.getD k (0, 0)).2 ≤ (l.getD (np_argmax (l.map Prod.snd)) (0, 0)).2)
    ∧ (∀ k, k < np_argmax (l.map Prod.snd) →
        (l.getD k (0, 0)).2 < (l.getD (np_argmax (l.map Prod.snd)) (0, 0)).2)
    ∧ visualize (some l)
      = ((l.getD (np_argmax (l.map Prod.snd)) (0, 0)).1,
         (l.getD (np_argmax (l.map Prod.snd)) (0, 0)).2,
         (l.getD (np_argmax (l.map Prod.snd)) (0, 0)).1
           / (l.getD (np_argmax (l.map Prod.snd)) (0, 0)).2 * 1e3) := by
  have hm : l.map Prod.snd ≠ [] := by simpa using h
  refine ⟨?_, ?_, ?_, rfl⟩
  · have := np_argmax_lt_length (l.map Prod.snd) hm
    rwa [List.length_map] at this
  · intro k hk
    have := np_argmax_is_max (l.map Prod.snd) k (by rwa [List.length_map])
    rwa [getD_map_snd, getD_map_snd] at this
  · intro k hk
    have := np_argmax_first (l.map Prod.snd) k hk
    rwa [getD_map_snd, getD_map_snd] at this

/-- Claim C7 (witness): the best-record law applied to a concrete collection
whose maximum `Q` is reached twice. -/
theorem c7_witness :
    sampleRecords ≠ []
    ∧ (np_argmax (sampleRecords.map Prod.snd) < sampleRecords.length
      ∧ (∀ k, k < sampleRecords.length →
          (sampleRecords.getD k (0, 0)).2
            ≤ (sampleRecords.getD (np_argmax (sampleRecords.map Prod.snd)) (0, 0)).2)
      ∧ (∀ k, k < np_argmax (sampleRecords.map Prod.snd) →
          (sampleRecords.getD k (0, 0)).2
            < (sampleRecords.getD (np_argmax (sampleRecords.map Prod.snd)) (0, 0)).2)
      ∧ visualize (some sampleRecords)
        = ((sampleRecords.getD (np_argmax (sampleRecords.map Prod.snd)) (0, 0)).1,
           (sampleRecords.getD (np_argmax (sampleRecords.map Prod.snd)) (0, 0)).2,
           (sampleRecords.getD (np_argmax (sampleRecords.map Prod.snd)) (0, 0)).1
             / (sampleRecords.getD (np_argmax (sampleRecords.map Prod.snd)) (0, 0)).2
             * 1e3)) :=
  ⟨by simp [sampleRecords], c7_best_record sampleRecords (by simp [sampleRecords])⟩

/-- Claim C2 (counterexample): at the fixed parameters the exported layout
contains eight alignment rectangles, not four. -/
theorem c2_counterexample :
    (export_gds defaultParams).align_marks.length = 8
    ∧ (export_gds defaultParams).align_marks.length ≠ 4 := by
  decide

/-- Claim C2 (amended): the exported layout holds a disk cell (one disk of
radius = scatterer radius, 64-point polygon, layer 1, centred at the origin),
a 1-row `N`-column array reference spaced by the pitch along the x-axis, and
EIGHT layer-2 alignment rectangles — for each extremity abscissa
`x ∈ {-a, N*a}` and each offset `y ∈ {-a/2, a/2}`, one `a/2 × a/20`-sized
horizontal bar centred at `(x, y)` and one vertical bar centred at the
swapped position `(y, x)` — each sized proportionally to the pitch. -/
theorem c2_amended :
    (export_gds defaultParams).disk.center = (0, 0)
    ∧ (export_gds defaultParams).disk.radius = defaultParams.radius
    ∧ (export_gds defaultParams).disk.number_of_points = 64
    ∧ (export_gds defaultParams).disk.layer = 1
    ∧ (export_gds defaultParams).array.columns = defaultParams.N
    ∧ (export_gds defaultParams).array.rows = 1
    ∧ (export_gds defaultParams).array.spacing = (defaultParams.a, 0)
    ∧ (export_gds defaultParams).array.origin = (0, 0)
    ∧ (export_gds defaultParams).align_marks.length = 8
    ∧ (∀ r ∈ (export_gds defaultParams).align_marks, r.layer = 2)
    ∧ (∀ r ∈ (export_gds defaultParams).align_marks,
        (r.x2 - r.x1 = align_size defaultParams
            ∧ r.y2 - r.y1 = align_size defaultParams / 10)
        ∨ (r.x2 - r.x1 = align_size defaultParams / 10
            ∧ r.y2 - r.y1 = align_size defaultParams))
    ∧ (∀ r ∈ (export_gds defaultParams).align_marks,
        ((r.x1 + r.x2) / 2 = -defaultParams.a
          ∨ (r.x1 + r.x2) / 2 = (defaultParams.N : ℚ) * defaultParams.a)
        ∨ ((r.y1 + r.y2) / 2 = -defaultParams.a
          ∨ (r.y1 + r.y2) / 2 = (defaultParams.N : ℚ) * defaultParams.a)) := by
  norm_num [export_gds, defaultParams, align_size]

/-- Claim C10: the built Hamiltonian is complex-symmetric — equal entries
under index swap, with no conjugation — because separation, coupling
magnitude and phase all depend only on `|i - j|`. -/
theorem c10_symmetric (p : Params) (omega : ℝ) (i j : Fin p.N) :
    build_hamiltonian p omega i j = build_hamiltonian p omega j i := by
  unfold build_hamiltonian coupling phase
  rw [Matrix.of_apply, Matrix.of_apply, rdist_symm]
  congr 1
  by_cases h : i = j
  · simp [h]
  · rw [if_neg h, if_neg fun h2 => h h2.symm]
